import Mathlib

/-!
Verification of the writer-studio repository's core behaviors:
the round-robin multi-agent evaluator, the deterministic pseudo-embedding,
the SQLite-backed persistence layer (upserts, evaluation saves, vector /
substring search), and the REST-layer result interpretation and template
instantiation, shallowly embedded from the Python sources.
-/

namespace WriterStudio

/-! ## Round-robin evaluator (spec §4.3)

Modelled from the spec: the run loop of `RoundRobinGroupChat` with
`MaxMessageTermination` (invoked by `create_novel_eval_team` /
`a_evaluate_chapter` in `teams/novel_eval_team.py`) is provided by the
`autogen` dependency and its source is not part of this repository.
Per spec §4.3: each turn, the next agent in strict round-robin order
(wrapping after the last agent) receives the task and the transcript so
far and appends exactly one message; turns repeat until the transcript
reaches the configured maximum number of messages M.
-/

/-- One transcript entry: the 0-indexed position of the speaking agent
and the message it produced. -/
structure Message where
  speaker : Nat
  content : String
deriving DecidableEq

/-- Modelled from the spec: run the round-robin evaluator with `n` agents
until the transcript holds `m` messages.  `speak a task tr` is the (total,
failure-free) completion call of agent `a` on the task and transcript so
far; the agent speaking at turn `t` is `t % n`. -/
def rrRun (n : Nat) (speak : Nat → String → List Message → String)
    (task : String) : Nat → List Message
  | 0 => []
  | m + 1 =>
    let tr := rrRun n speak task m
    tr ++ [⟨tr.length % n, speak (tr.length % n) task tr⟩]

theorem rrRun_length (n : Nat) (speak : Nat → String → List Message → String)
    (task : String) (m : Nat) : (rrRun n speak task m).length = m := by
  induction m with
  | zero => rfl
  | succ m ih => simp [rrRun, ih]

theorem rrRun_speakers (n : Nat) (speak : Nat → String → List Message → String)
    (task : String) (m : Nat) :
    (rrRun n speak task m).map Message.speaker = (List.range m).map (· % n) := by
  induction m with
  | zero => rfl
  | succ m ih => simp [rrRun, List.range_succ, ih, rrRun_length]

theorem rrRun_getElem (n : Nat) (speak : Nat → String → List Message → String)
    (task : String) (m t : Nat) (ht : t < (rrRun n speak task m).length) :
    ((rrRun n speak task m)[t]).speaker = t % n := by
  have hmap := rrRun_speakers n speak task m
  have hlen := rrRun_length n speak task m
  have ht' : t < m := hlen ▸ ht
  have hb1 : t < ((rrRun n speak task m).map Message.speaker).length := by
    simpa [hlen] using ht'
  have hb2 : t < ((List.range m).map (fun x => x % n)).length := by
    simpa using ht'
  have h1 : ((rrRun n speak task m).map Message.speaker)[t] =
      ((List.range m).map (fun x => x % n))[t] := by
    simp only [hmap]
  simpa using h1

/-- Number of turns `t < m` on which agent `i` speaks. -/
theorem rrRun_countP_step (n : Nat) (speak : Nat → String → List Message → String)
    (task : String) (m i : Nat) :
    ((rrRun n speak task (m + 1)).countP (fun msg => msg.speaker == i)) =
      ((rrRun n speak task m).countP (fun msg => msg.speaker == i)) +
        (if m % n = i then 1 else 0) := by
  simp only [rrRun, List.countP_append, List.countP_cons, List.countP_nil,
    rrRun_length]
  by_cases h : m % n = i
  · simp [h]
  · simp [h]

/-- Arithmetic step: how the ceiling-count `(m - i + (n - 1)) / n` of turns
for agent `i` grows when one more turn is run. -/
theorem ceilCount_step (n m i : Nat) (hn : 0 < n) (hi : i < n) :
    (m + 1 - i + (n - 1)) / n =
      (m - i + (n - 1)) / n + (if m % n = i then 1 else 0) := by
  rcases Nat.lt_or_ge m i with hmi | hmi
  · have h1 : m + 1 - i ≤ 0 + (i - m - 1) + 1 - 1 := by omega
    have h2 : m - i = 0 := by omega
    have h3 : m % n = m := Nat.mod_eq_of_lt (lt_trans hmi hi)
    have h4 : m ≠ i := Nat.ne_of_lt hmi
    have h5 : m + 1 - i = 0 := by omega
    simp [h2, h3, h5, h4]
  · rcases Nat.eq_or_lt_of_le hmi with heq | hlt
    · have h3 : m % n = i := by
        rw [← heq]; exact Nat.mod_eq_of_lt (heq ▸ hi)
      have h5 : m + 1 - i = 1 := by omega
      have h2 : m - i = 0 := by omega
      have hne : n - 1 < n := by omega
      rw [h5, h2, h3, if_pos rfl]
      have : 1 + (n - 1) = n := by omega
      rw [this, Nat.div_self hn, Nat.zero_add, Nat.div_eq_of_lt hne]
    · -- i < m : write m - i = k + 1
      obtain ⟨k, hk⟩ : ∃ k, m - i = k + 1 := ⟨m - i - 1, by omega⟩
      have hL : m + 1 - i + (n - 1) = (k + 1) + n := by omega
      have hR : m - i + (n - 1) = k + n := by omega
      rw [hL, hR, Nat.add_div_right _ hn, Nat.add_div_right _ hn, Nat.succ_div]
      have hdvd : n ∣ k + 1 ↔ m % n = i := by
        constructor
        · intro ⟨c, hc⟩
          have hm : m = n * c + i := by omega
          rw [hm, Nat.mul_add_mod, Nat.mod_eq_of_lt hi]
        · intro hmod
          have h1 : m % n = i % n := by rw [hmod, Nat.mod_eq_of_lt hi]
          have h2 : n ∣ m - i := (Nat.modEq_iff_dvd' (by omega)).mp h1.symm
          rwa [hk] at h2
      by_cases h : m % n = i
      · rw [if_pos (hdvd.mpr h), if_pos h]
      · rw [if_neg (fun hd => h (hdvd.mp hd)), if_neg h]

theorem rrRun_speak_count (n : Nat) (speak : Nat → String → List Message → String)
    (task : String) (m i : Nat) (hn : 0 < n) (hi : i < n) :
    ((rrRun n speak task m).countP (fun msg => msg.speaker == i)) =
      (m - i + (n - 1)) / n := by
  induction m with
  | zero =>
    simp only [rrRun, List.countP_nil]
    exact (Nat.div_eq_of_lt (by omega)).symm
  | succ m ih =>
    rw [rrRun_countP_step, ih, ceilCount_step n m i hn hi]

/-- C1: for a message cap M ≥ 1 and N ≥ 1 agents, a failure-free run of the
round-robin evaluator terminates with a transcript of exactly M messages,
one per turn (modelled from spec §4.3; the loop implementation lives in the
autogen dependency, outside this repository's sources). -/
theorem claim1_rr_terminates_exactly_M (n m : Nat)
    (speak : Nat → String → List Message → String) (task : String)
    (hn : 1 ≤ n) (hm : 1 ≤ m) :
    (rrRun n speak task m).length = m :=
  rrRun_length n speak task m

theorem claim1_rr_terminates_exactly_M_witness :
    1 ≤ 4 ∧ (rrRun 4 (fun _ _ _ => "msg") "task" 4).length = 4 :=
  ⟨by decide,
   claim1_rr_terminates_exactly_M 4 4 (fun _ _ _ => "msg") "task"
     (by decide) (by decide)⟩

/-- C2: in a round-robin run with N agents and cap M, the message at turn t
is produced by agent t % N (so agent i speaks exactly on turns i, i+N,
i+2N, …), and agent i speaks exactly ⌈(M-i)/N⌉ = (M - i + (N-1)) / N times
(modelled from spec §4.3). -/
theorem claim2_rr_rotation_and_fairness (n m i : Nat)
    (speak : Nat → String → List Message → String) (task : String)
    (hn : 1 ≤ n) (hi : i < n) :
    (∀ t (ht : t < (rrRun n speak task m).length),
        ((rrRun n speak task m)[t]).speaker = t % n) ∧
      ((rrRun n speak task m).countP (fun msg => msg.speaker == i)) =
        (m - i + (n - 1)) / n :=
  ⟨fun t ht => rrRun_getElem n speak task m t ht,
   rrRun_speak_count n speak task m i hn hi⟩

theorem claim2_rr_rotation_and_fairness_witness :
    (1 : Nat) < 4 ∧
      (∀ t (ht : t < (rrRun 4 (fun _ _ _ => "msg") "task" 6).length),
          ((rrRun 4 (fun _ _ _ => "msg") "task" 6)[t]).speaker = t % 4) ∧
        ((rrRun 4 (fun _ _ _ => "msg") "task" 6).countP
            (fun msg => msg.speaker == 1)) = (6 - 1 + (4 - 1)) / 4 :=
  ⟨by decide,
   claim2_rr_rotation_and_fairness 4 6 1 (fun _ _ _ => "msg") "task"
     (by decide) (by decide)⟩

/-! ## SHA-256 (the `hashlib.sha256` call in `persistence/db.py`)

Bytes are `Nat` values < 256, 32-bit words are `Nat` values < 2^32 with
explicit `% 2 ^ 32` where overflow matters. -/

namespace SHA256

/-- Big-endian bytes of `x`, `k` bytes wide (truncating above 2^(8k)). -/
def toBytesBE : Nat → Nat → List Nat
  | 0, _ => []
  | k + 1, x => toBytesBE k (x / 256) ++ [x % 256]

/-- Big-endian integer value of a byte list (Python `int.from_bytes(_, "big")`). -/
def fromBytesBE (bs : List Nat) : Nat :=
  bs.foldl (fun acc b => acc * 256 + b) 0

/-- Split a list into chunks of `k` elements (fuel-driven). -/
def chunksAux (k : Nat) : Nat → List Nat → List (List Nat)
  | 0, _ => []
  | _, [] => []
  | fuel + 1, xs => xs.take k :: chunksAux k fuel (xs.drop k)

def chunks (k : Nat) (xs : List Nat) : List (List Nat) :=
  chunksAux k xs.length xs

/-- Right-rotation of a 32-bit word. -/
def rotr (s x : Nat) : Nat := x / 2 ^ s + (x % 2 ^ s) * 2 ^ (32 - s)

def shr (s x : Nat) : Nat := x / 2 ^ s

def not32 (x : Nat) : Nat := 2 ^ 32 - 1 - x

def ch (x y z : Nat) : Nat := (x &&& y) ^^^ (not32 x &&& z)

def maj (x y z : Nat) : Nat := (x &&& y) ^^^ (x &&& z) ^^^ (y &&& z)

def bigSigma0 (x : Nat) : Nat := rotr 2 x ^^^ rotr 13 x ^^^ rotr 22 x

def bigSigma1 (x : Nat) : Nat := rotr 6 x ^^^ rotr 11 x ^^^ rotr 25 x

def smallSigma0 (x : Nat) : Nat := rotr 7 x ^^^ rotr 18 x ^^^ shr 3 x

def smallSigma1 (x : Nat) : Nat := rotr 17 x ^^^ rotr 19 x ^^^ shr 10 x

/-- The 64 SHA-256 round constants. -/
def K : List Nat :=
  [1116352408, 1899447441, 3049323471, 3921009573, 961987163,
   1508970993, 2453635748, 2870763221, 3624381080, 310598401,
   607225278, 1426881987, 1925078388, 2162078206, 2614888103,
   3248222580, 3835390401, 4022224774, 264347078, 604807628,
   770255983, 1249150122, 1555081692, 1996064986, 2554220882,
   2821834349, 2952996808, 3210313671, 3336571891, 3584528711,
   113926993, 338241895, 666307205, 773529912, 1294757372,
   1396182291, 1695183700, 1986661051, 2177026350, 2456956037,
   2730485921, 2820302411, 3259730800, 3345764771, 3516065817,
   3600352804, 4094571909, 275423344, 430227734, 506948616,
   659060556, 883997877, 958139571, 1322822218, 1537002063,
   1747873779, 1955562222, 2024104815, 2227730452, 2361852424,
   2428436474, 2756734187, 3204031479, 3329325298]

/-- The eight SHA-256 initial hash words. -/
def H0 : List Nat :=
  [1779033703, 3144134277, 1013904242, 2773480762, 1359893119,
   2600822924, 528734635, 1541459225]

/-- Pad a byte message per SHA-256: append 0x80, zero bytes up to 56 mod 64,
then the 64-bit big-endian bit length. -/
def pad (msg : List Nat) : List Nat :=
  msg ++ [0x80] ++ List.replicate ((119 - msg.length % 64) % 64) 0 ++
    toBytesBE 8 ((msg.length * 8) % 2 ^ 64)

/-- Message schedule: extend the 16 block words to 64 words. -/
def schedule (block : List Nat) : List Nat :=
  (List.range 48).foldl
    (fun w j =>
      let t := j + 16
      w ++ [(smallSigma1 (w.getD (t - 2) 0) + w.getD (t - 7) 0 +
             smallSigma0 (w.getD (t - 15) 0) + w.getD (t - 16) 0) % 2 ^ 32])
    block

/-- Working state of the compression loop. -/
structure Regs where
  a : Nat
  b : Nat
  c : Nat
  d : Nat
  e : Nat
  f : Nat
  g : Nat
  h : Nat

def round (w k : Nat) (s : Regs) : Regs :=
  let t1 := (s.h + bigSigma1 s.e + ch s.e s.f s.g + k + w) % 2 ^ 32
  let t2 := (bigSigma0 s.a + maj s.a s.b s.c) % 2 ^ 32
  ⟨(t1 + t2) % 2 ^ 32, s.a, s.b, s.c, (s.d + t1) % 2 ^ 32, s.e, s.f, s.g⟩

def compressBlock (h : List Nat) (block : List Nat) : List Nat :=
  let w := schedule block
  let s0 : Regs := ⟨h.getD 0 0, h.getD 1 0, h.getD 2 0, h.getD 3 0,
                    h.getD 4 0, h.getD 5 0, h.getD 6 0, h.getD 7 0⟩
  let s := (List.range 64).foldl (fun s t => round (w.getD t 0) (K.getD t 0) s) s0
  [(h.getD 0 0 + s.a) % 2 ^ 32, (h.getD 1 0 + s.b) % 2 ^ 32,
   (h.getD 2 0 + s.c) % 2 ^ 32, (h.getD 3 0 + s.d) % 2 ^ 32,
   (h.getD 4 0 + s.e) % 2 ^ 32, (h.getD 5 0 + s.f) % 2 ^ 32,
   (h.getD 6 0 + s.g) % 2 ^ 32, (h.getD 7 0 + s.h) % 2 ^ 32]

/-- SHA-256 digest (32 bytes) of a byte message. -/
def digest (msg : List Nat) : List Nat :=
  let blocks := (chunks 64 (pad msg)).map (fun b => (chunks 4 b).map fromBytesBE)
  ((blocks.foldl compressBlock H0).map (toBytesBE 4)).flatten

end SHA256

/-- UTF-8 encoding of one unicode code point, as bytes. -/
def utf8EncodeChar (c : Nat) : List Nat :=
  if c < 0x80 then [c]
  else if c < 0x800 then [0xC0 + c / 64, 0x80 + c % 64]
  else if c < 0x10000 then
    [0xE0 + c / 4096, 0x80 + c / 64 % 64, 0x80 + c % 64]
  else
    [0xF0 + c / 262144, 0x80 + c / 4096 % 64, 0x80 + c / 64 % 64,
     0x80 + c % 64]

/-- UTF-8 encoding of a string (Python `text.encode("utf-8")`). -/
def utf8Encode (s : String) : List Nat :=
  (s.data.map (fun c => utf8EncodeChar c.toNat)).flatten

/-! ## `_pseudo_embed` (`persistence/db.py` lines 40-55)

Deterministic pseudo-embedding: SHA-256 of the UTF-8 text seeds a 64-bit
linear-congruential sequence; each step yields `rng / 2^64 - 0.5`.  The
vector components are modelled exactly as rationals: the Python `float`
value of each component is the deterministic IEEE-754 rounding of the
rational `rng / 2^64 - 1/2`, so bit-identity of the float vectors follows
from equality of the rational vectors. -/

/-- Default embedding dimension (`NOVEL_EVAL_EMBED_DIM` env default "384"). -/
def EMBED_DIM : Nat := 384

/-- The LCG loop body of `_pseudo_embed`: advance `rng` and emit
`rng / 2^64 - 0.5`, `dim` times. -/
def pseudoEmbedAux : Nat → Nat → List ℚ
  | 0, _ => []
  | d + 1, rng =>
    let rng' : Nat := (rng * 2862933555777941757 + 3037000493) % 2 ^ 64
    ((rng' : ℚ) / (2 ^ 64 : ℚ) - 1 / 2) :: pseudoEmbedAux d rng'

/-- `_pseudo_embed(text, dim)`: SHA-256 of the UTF-8 encoding of `text`
(`text or ""` is `text` itself for `str` input), first 8 digest bytes read
big-endian as seed, one LCG pre-step, then `dim` LCG outputs mapped to
[-0.5, 0.5). -/
def pseudo_embed (text : String) (dim : Nat) : List ℚ :=
  let h := SHA256.digest (utf8Encode text)
  let seed := fromBytesBE8 h
  let rng := (seed * 6364136223846793005 + 1) % 2 ^ 64
  pseudoEmbedAux dim rng
where
  /-- `int.from_bytes(h[:8], "big")`. -/
  fromBytesBE8 (h : List Nat) : Nat := SHA256.fromBytesBE (h.take 8)

theorem pseudoEmbedAux_length (d rng : Nat) :
    (pseudoEmbedAux d rng).length = d := by
  induction d generalizing rng with
  | zero => rfl
  | succ d ih => simp [pseudoEmbedAux, ih]

/-- C3: `_pseudo_embed` is deterministic — identical input text yields the
identical vector (componentwise-equal rationals, hence bit-identical IEEE
floats), of length exactly `dim`; the result depends on nothing but the
text and the dimension. -/
theorem claim3_pseudo_embed_deterministic (t₁ t₂ : String) (dim : Nat)
    (h : t₁ = t₂) :
    pseudo_embed t₁ dim = pseudo_embed t₂ dim ∧
      (pseudo_embed t₁ dim).length = dim :=
  ⟨h ▸ rfl, pseudoEmbedAux_length dim _⟩

theorem claim3_pseudo_embed_deterministic_witness :
    "Mystery tale" = "Mystery tale" ∧
      (pseudo_embed "Mystery tale" EMBED_DIM =
          pseudo_embed "Mystery tale" EMBED_DIM ∧
        (pseudo_embed "Mystery tale" EMBED_DIM).length = EMBED_DIM) :=
  ⟨rfl, claim3_pseudo_embed_deterministic "Mystery tale" "Mystery tale"
    EMBED_DIM rfl⟩

/-! ## Python values and `json.loads`

`PyValue` models the Python values produced by `json.loads` and carried in
request bodies: `None`, booleans, ints, floats (kept as the matched JSON
literal, which determines the IEEE value deterministically), strings,
lists and dicts (association lists in insertion order). -/

inductive PyValue where
  | none
  | bool (b : Bool)
  | int (n : Int)
  | float (lit : String)
  | nan
  | inf (neg : Bool)
  | str (s : String)
  | list (elems : List PyValue)
  | dict (entries : List (String × PyValue))

/-- JSON whitespace (` `, TAB, LF, CR), by code point. -/
def isJsonWs (c : Nat) : Bool := c == 32 || c == 9 || c == 10 || c == 13

def skipWs : List Char → List Char
  | [] => []
  | c :: cs => if isJsonWs c.toNat then skipWs cs else c :: cs

def hexVal (c : Char) : Option Nat :=
  let n := c.toNat
  if 48 ≤ n && n ≤ 57 then some (n - 48)
  else if 97 ≤ n && n ≤ 102 then some (n - 87)
  else if 65 ≤ n && n ≤ 70 then some (n - 55)
  else none

def hex4 : List Char → Option (Nat × List Char)
  | a :: b :: c :: d :: rest => do
    let va ← hexVal a
    let vb ← hexVal b
    let vc ← hexVal c
    let vd ← hexVal d
    some (va * 4096 + vb * 256 + vc * 16 + vd, rest)
  | _ => none

/-- Scan a strict JSON string body (after the opening quote): control
characters are rejected, the eight standard escapes and `\uXXXX` (with
surrogate-pair combining, as in CPython's decoder) are handled.  A lone
surrogate, which CPython keeps as-is but which is not a unicode scalar,
maps through `Char.ofNat` to NUL. -/
def scanString : Nat → List Char → Option (String × List Char)
  | 0, _ => none
  | _, [] => none
  | fuel + 1, c :: cs =>
    if c.toNat == 34 then some ("", cs)
    else if c.toNat == 92 then
      match cs with
      | [] => none
      | e :: cs' =>
        let simpleEsc : Option Nat :=
          if e.toNat == 34 then some 34
          else if e.toNat == 92 then some 92
          else if e.toNat == 47 then some 47
          else if e.toNat == 98 then some 8
          else if e.toNat == 102 then some 12
          else if e.toNat == 110 then some 10
          else if e.toNat == 114 then some 13
          else if e.toNat == 116 then some 9
          else none
        match simpleEsc with
        | some code =>
          (scanString fuel cs').map fun (s, r) =>
            (String.mk (Char.ofNat code :: s.data), r)
        | none =>
          if e.toNat == 117 then
            match hex4 cs' with
            | none => none
            | some (code, rest) =>
              let (code, rest) :=
                if 0xD800 ≤ code && code ≤ 0xDBFF then
                  match rest with
                  | b1 :: b2 :: rest2 =>
                    if b1.toNat == 92 && b2.toNat == 117 then
                      match hex4 rest2 with
                      | some (low, rest3) =>
                        if 0xDC00 ≤ low && low ≤ 0xDFFF then
                          (0x10000 + (code - 0xD800) * 0x400 + (low - 0xDC00),
                           rest3)
                        else (code, rest)
                      | none => (code, rest)
                    else (code, rest)
                  | _ => (code, rest)
                else (code, rest)
              (scanString fuel rest).map fun (s, r) =>
                (String.mk (Char.ofNat code :: s.data), r)
          else none
    else if c.toNat < 32 then none
    else
      (scanString fuel cs).map fun (s, r) => (String.mk (c :: s.data), r)

/-- Leading decimal digits. -/
def digitSpan : List Char → List Char × List Char
  | [] => ([], [])
  | c :: cs =>
    if 48 ≤ c.toNat && c.toNat ≤ 57 then
      let (d, r) := digitSpan cs
      (c :: d, r)
    else ([], c :: cs)

/-- Match CPython's JSON number regex
`(-?(?:0|[1-9]\d*))(\.\d+)?([eE][-+]?\d+)?` at the head of the input;
an integer-only match yields a Python `int`, otherwise a `float` carrying
the matched literal. -/
def parseNumber (cs : List Char) : Option (PyValue × List Char) :=
  let (sign, cs1) :=
    match cs with
    | c :: rest => if c.toNat == 45 then (true, rest) else (false, cs)
    | [] => (false, cs)
  match cs1 with
  | [] => none
  | c :: rest =>
    let ipart : Option (List Char × List Char) :=
      if c.toNat == 48 then some ([c], rest)
      else if 49 ≤ c.toNat && c.toNat ≤ 57 then
        let (d, r) := digitSpan rest
        some (c :: d, r)
      else none
    match ipart with
    | none => none
    | some (ids, cs2) =>
      let (frac, cs3) :=
        match cs2 with
        | p :: ds =>
          if p.toNat == 46 then
            match digitSpan ds with
            | ([], _) => ([], cs2)
            | (fd, r) => (p :: fd, r)
          else ([], cs2)
        | [] => ([], cs2)
      let (expo, cs4) :=
        match cs3 with
        | e :: ds =>
          if e.toNat == 101 || e.toNat == 69 then
            let (esign, ds2) :=
              match ds with
              | s :: ds' =>
                if s.toNat == 43 || s.toNat == 45 then ([s], ds')
                else (([] : List Char), ds)
              | [] => ([], ds)
            match digitSpan ds2 with
            | ([], _) => ([], cs3)
            | (ed, r) => (e :: esign ++ ed, r)
          else ([], cs3)
        | [] => ([], cs3)
      let digitsVal : Nat := ids.foldl (fun a d => a * 10 + (d.toNat - 48)) 0
      if frac.isEmpty && expo.isEmpty then
        some (.int (if sign then -(digitsVal : Int) else (digitsVal : Int)),
              cs4)
      else
        let lit := String.mk ((if sign then [Char.ofNat 45] else []) ++
          ids ++ frac ++ expo)
        some (.float lit, cs4)

/-- Drop a literal prefix. -/
def dropLit (lit : List Char) (cs : List Char) : Option (List Char) :=
  match lit, cs with
  | [], rest => some rest
  | l :: ls, c :: rest => if l == c then dropLit ls rest else none
  | _ :: _, [] => none

/-- `dict(pairs)`: later values for an existing key replace the value in
place; new keys append. -/
def dictInsert (entries : List (String × PyValue)) (k : String)
    (v : PyValue) : List (String × PyValue) :=
  match entries with
  | [] => [(k, v)]
  | (k', v') :: rest =>
    if k' == k then (k', v) :: rest else (k', v') :: dictInsert rest k v

def dictOfPairs (pairs : List (String × PyValue)) : List (String × PyValue) :=
  pairs.foldl (fun acc p => dictInsert acc p.1 p.2) []

mutual

/-- Scan one JSON value at the head of the input (CPython `_scan_once`):
string, object, array, `null`/`true`/`false`, number, then the
non-standard `NaN`/`Infinity`/`-Infinity` constants. -/
def scanValue : Nat → List Char → Option (PyValue × List Char)
  | 0, _ => none
  | fuel + 1, cs =>
    match cs with
    | [] => none
    | c :: rest =>
      if c.toNat == 34 then
        (scanString (rest.length + 1) rest).map fun (s, r) => (.str s, r)
      else if c.toNat == 123 then
        let r := skipWs rest
        match r with
        | c2 :: r2 =>
          if c2.toNat == 125 then some (.dict [], r2)
          else
            (scanObjectItems fuel r).map fun (pairs, r3) =>
              (.dict (dictOfPairs pairs), r3)
        | [] => none
      else if c.toNat == 91 then
        let r := skipWs rest
        match r with
        | c2 :: r2 =>
          if c2.toNat == 93 then some (.list [], r2)
          else
            (scanArrayItems fuel r).map fun (vs, r3) => (.list vs, r3)
        | [] => none
      else
        match dropLit "null".data cs with
        | some r => some (.none, r)
        | none =>
        match dropLit "true".data cs with
        | some r => some (.bool true, r)
        | none =>
        match dropLit "false".data cs with
        | some r => some (.bool false, r)
        | none =>
        match parseNumber cs with
        | some (v, r) => some (v, r)
        | none =>
        match dropLit "NaN".data cs with
        | some r => some (.nan, r)
        | none =>
        match dropLit "Infinity".data cs with
        | some r => some (.inf false, r)
        | none =>
        match dropLit "-Infinity".data cs with
        | some r => some (.inf true, r)
        | none => none

/-- Array items after `[` (first item position, not `]`). -/
def scanArrayItems : Nat → List Char → Option (List PyValue × List Char)
  | 0, _ => none
  | fuel + 1, cs =>
    match scanValue fuel cs with
    | none => none
    | some (v, rest) =>
      match skipWs rest with
      | c :: r2 =>
        if c.toNat == 44 then
          (scanArrayItems fuel (skipWs r2)).map fun (vs, r3) => (v :: vs, r3)
        else if c.toNat == 93 then some ([v], r2)
        else none
      | [] => none

/-- Object members after `{` (first key position, not `}`): strict
`"key" : value` pairs separated by commas. -/
def scanObjectItems : Nat → List Char →
    Option (List (String × PyValue) × List Char)
  | 0, _ => none
  | fuel + 1, cs =>
    match cs with
    | c :: rest =>
      if c.toNat == 34 then
        match scanString (rest.length + 1) rest with
        | none => none
        | some (key, r1) =>
          match skipWs r1 with
          | c2 :: r2 =>
            if c2.toNat == 58 then
              match scanValue fuel (skipWs r2) with
              | none => none
              | some (v, r3) =>
                match skipWs r3 with
                | c3 :: r4 =>
                  if c3.toNat == 44 then
                    match skipWs r4 with
                    | [] => none
                    | r5 =>
                      (scanObjectItems fuel r5).map fun (ps, r6) =>
                        ((key, v) :: ps, r6)
                  else if c3.toNat == 125 then some ([(key, v)], r4)
                  else none
                | [] => none
            else none
          | [] => none
      else none
    | [] => none

end

/-- Python `json.loads`: skip leading whitespace, scan one value, require
only whitespace to follow; any failure is a decode error (`none`). -/
def json_loads (s : String) : Option PyValue :=
  match scanValue (16 * (s.data.length + 1)) (skipWs s.data) with
  | some (v, rest) => if (skipWs rest).isEmpty then some v else none
  | none => none

/-! ## Result interpretation (`api/server.py`, `evaluate`, lines 152-166) -/

/-- A transcript message as the API layer probes it: the optional
`content` and `text` attributes (`getattr(msg, _, None)`); a missing
attribute is `none`. -/
structure AgentMsg where
  content : Option String
  text : Option String

/-- Python truthiness of a `str`-or-`None` value. -/
def pyTruthy : Option String → Bool
  | some s => !(s == "")
  | none => false

/-- Python `a or b` on `str`-or-`None` values. -/
def pyOrStr (a b : Option String) : Option String :=
  if pyTruthy a then a else b

/-- `final_text` extraction: `None` unless `result.messages` is non-empty
(Python truthiness of the list), then
`getattr(last, "content", None) or getattr(last, "text", None)`. -/
def finalTextOf (messages : List AgentMsg) : Option String :=
  match messages.getLast? with
  | some last => pyOrStr last.content last.text
  | none => none

/-- `final_json` extraction: only when `final_text` is truthy, attempt
`json.loads`; any decode failure is swallowed to `None`. -/
def finalJsonOf (final_text : Option String) : Option PyValue :=
  if pyTruthy final_text then
    match final_text with
    | some s => json_loads s
    | none => none
  else none

/-- The interpreted result the `evaluate` endpoint builds from a
transcript: raw final text and optional parsed JSON. -/
structure EvalInterp where
  final_text : Option String
  final_json : Option PyValue

def interpretResult (messages : List AgentMsg) : EvalInterp :=
  let ft := finalTextOf messages
  ⟨ft, finalJsonOf ft⟩

theorem json_loads_empty : json_loads "" = none := rfl

/-- C7 fails as stated: for a last message whose content is the empty
string (empty content is not valid JSON), the returned raw text is NOT the
content — Python's `or` falls through on the falsy `""`, so `final_text`
comes from the `text` attribute (here `None`). -/
theorem claim7_counterexample :
    json_loads "" = none ∧
      (interpretResult [⟨some "", none⟩]).final_json = none ∧
      ¬ (interpretResult [⟨some "", none⟩]).final_text = some "" := by
  refine ⟨rfl, rfl, ?_⟩
  intro h
  simp [interpretResult, finalTextOf, pyOrStr, pyTruthy] at h

/-- C7 amended: for a transcript whose last message has content `c`:
if `c` is valid JSON, the structured field deep-equals its decoding; if
`c` is not valid JSON and non-empty, the structured field is absent and
the raw text equals `c` exactly; if `c` is the empty string (falsy in
Python), the raw text instead falls back to the message's `text`
attribute.  No decode failure raises an error. -/
theorem claim7_interpret_roundtrip (messages : List AgentMsg)
    (last : AgentMsg) (c : String)
    (hlast : messages.getLast? = some last) (hc : last.content = some c) :
    (∀ v, json_loads c = some v →
        (interpretResult messages).final_json = some v) ∧
      (json_loads c = none → c ≠ "" →
        (interpretResult messages).final_json = none ∧
          (interpretResult messages).final_text = some c) ∧
      (c = "" → (interpretResult messages).final_text = last.text) := by
  have hft : finalTextOf messages = pyOrStr (some c) last.text := by
    simp [finalTextOf, hlast, hc]
  refine ⟨?_, ?_, ?_⟩
  · intro v hv
    have hcne : ¬ (c = "") := by
      intro h; rw [h] at hv; simp [json_loads_empty] at hv
    simp [interpretResult, hft, pyOrStr, pyTruthy, hcne, finalJsonOf, hv]
  · intro hnone hcne
    constructor
    · simp [interpretResult, hft, pyOrStr, pyTruthy, hcne, finalJsonOf, hnone]
    · simp [interpretResult, hft, pyOrStr, pyTruthy, hcne]
  · intro hce
    simp [interpretResult, hft, hce, pyOrStr, pyTruthy]

theorem claim7_interpret_roundtrip_witness :
    ([⟨some "[3]", none⟩] : List AgentMsg).getLast? = some ⟨some "[3]", none⟩ ∧
      ((∀ v, json_loads "[3]" = some v →
          (interpretResult [⟨some "[3]", none⟩]).final_json = some v) ∧
        (json_loads "[3]" = none → "[3]" ≠ "" →
          (interpretResult [⟨some "[3]", none⟩]).final_json = none ∧
            (interpretResult [⟨some "[3]", none⟩]).final_text = some "[3]") ∧
        ("[3]" = "" →
          (interpretResult [⟨some "[3]", none⟩]).final_text = none)) :=
  ⟨rfl, claim7_interpret_roundtrip [⟨some "[3]", none⟩] ⟨some "[3]", none⟩
    "[3]" rfl rfl⟩

/-! ## Template instantiation (`api/server.py`, `use_template`, lines 358-398) -/

/-- Python dict read (`d[k]` / `k in d`) on an association list. -/
def lookupEntry (k : String) : List (String × PyValue) → Option PyValue
  | [] => none
  | (k', v) :: rest => if k' == k then some v else lookupEntry k rest

/-- `not (isinstance(v, dict) or isinstance(v, list))`. -/
def notDictNorList : PyValue → Bool
  | .dict _ => false
  | .list _ => false
  | _ => true

/-- The relationships-override normalization of `use_template`: a dict
holding an `"allies"` list flattens to that list; any other value (list or
scalar) is kept unchanged.  The surrounding `try/except` has no failing
operation on these checked accesses and is dead in the pure model. -/
def normalizeRelationships (rel : PyValue) : PyValue :=
  match rel with
  | .dict entries =>
    match lookupEntry "allies" entries with
    | some (.list xs) => .list xs
    | _ => rel
  | _ => rel

/-- `use_template`'s new-profile construction: copy the template defaults,
apply the `backstory` override if given, apply the normalized
`relationships` override if given, then set `name`.  Python dict
assignment keeps the position of an existing key (`dictInsert`). -/
def useTemplateProfile (defaults : List (String × PyValue))
    (backstory relationships : Option PyValue) (newName : String) :
    List (String × PyValue) :=
  let p := defaults
  let p := match backstory with
    | some b => dictInsert p "backstory" b
    | none => p
  let p := match relationships with
    | some r => dictInsert p "relationships" (normalizeRelationships r)
    | none => p
  dictInsert p "name" (.str newName)

theorem lookupEntry_dictInsert_self (k : String) (v : PyValue)
    (p : List (String × PyValue)) :
    lookupEntry k (dictInsert p k v) = some v := by
  induction p with
  | nil => simp [dictInsert, lookupEntry]
  | cons hd tl ih =>
    obtain ⟨k', v'⟩ := hd
    by_cases h : k' = k
    · simp [dictInsert, lookupEntry, h]
    · simp [dictInsert, lookupEntry, h, ih]

theorem lookupEntry_dictInsert_other (k k' : String) (v : PyValue)
    (p : List (String × PyValue)) (hne : k ≠ k') :
    lookupEntry k (dictInsert p k' v) = lookupEntry k p := by
  induction p with
  | nil => simp [dictInsert, lookupEntry, Ne.symm hne]
  | cons hd tl ih =>
    obtain ⟨k'', v''⟩ := hd
    by_cases h : k'' = k'
    · subst h
      have hkk : ¬ (k'' = k) := fun hh => hne hh.symm
      simp [dictInsert, lookupEntry, hkk]
    · simp [dictInsert, lookupEntry, h, ih]

/-- C8: instantiating a profile from a template normalizes the
`relationships` override: a dict whose `"allies"` value is a list yields
the flattened allies list in the resulting profile; a non-dict, non-list
override is stored unchanged. -/
theorem claim8_use_template_relationships
    (defaults : List (String × PyValue)) (backstory : Option PyValue)
    (newName : String) :
    (∀ entries xs, lookupEntry "allies" entries = some (.list xs) →
        lookupEntry "relationships"
          (useTemplateProfile defaults backstory
            (some (.dict entries)) newName) = some (.list xs)) ∧
      (∀ v, notDictNorList v = true →
        lookupEntry "relationships"
          (useTemplateProfile defaults backstory (some v) newName) =
            some v) := by
  constructor
  · intro entries xs hall
    simp only [useTemplateProfile]
    rw [lookupEntry_dictInsert_other _ _ _ _ (by decide)]
    simp only [normalizeRelationships, hall]
    exact lookupEntry_dictInsert_self _ _ _
  · intro v hv
    have hnorm : normalizeRelationships v = v := by
      cases v <;> simp_all [normalizeRelationships, notDictNorList]
    simp only [useTemplateProfile, hnorm]
    rw [lookupEntry_dictInsert_other _ _ _ _ (by decide)]
    exact lookupEntry_dictInsert_self _ _ _

theorem claim8_use_template_relationships_witness :
    lookupEntry "allies" [("allies", PyValue.list [.str "Ally1"])] =
        some (.list [.str "Ally1"]) ∧
      lookupEntry "relationships"
          (useTemplateProfile [] none
            (some (.dict [("allies", PyValue.list [.str "Ally1"])])) "X") =
        some (.list [.str "Ally1"]) ∧
      lookupEntry "relationships"
          (useTemplateProfile [] none (some (.str "Friend")) "X") =
        some (.str "Friend") :=
  ⟨rfl,
   (claim8_use_template_relationships [] none "X").1 _ _ rfl,
   (claim8_use_template_relationships [] none "X").2 _ rfl⟩

/-! ## Character-profile persistence (`persistence/db.py` lines 145-173)

SQLite is modelled explicitly: a table is a list of rows in insertion
order, `AUTOINCREMENT` is a next-id counter, `CURRENT_TIMESTAMP` is a
`now` parameter.  `json.dumps` of the profile document is deterministic,
so the stored TEXT column is modelled by the document value itself. -/

structure ProfileRow where
  id : Nat
  created_at : Nat
  updated_at : Nat
  lang : String
  name : String
  profile_json : PyValue

structure ProfilesDB where
  rows : List ProfileRow
  next_id : Nat

/-- The natural-key predicate of the `UNIQUE(lang, name)` constraint. -/
def profileKeyIs (lang name : String) (r : ProfileRow) : Bool :=
  r.lang == lang && r.name == name

def findProfileRow (rows : List ProfileRow) (lang name : String) :
    Option ProfileRow :=
  rows.find? (profileKeyIs lang name)

/-- The `DO UPDATE SET profile_json=excluded.profile_json,
updated_at=CURRENT_TIMESTAMP` action. -/
def updateProfileRow (now : Nat) (doc : PyValue) (r : ProfileRow) :
    ProfileRow :=
  { r with profile_json := doc, updated_at := now }

/-- `save_character_profile`: UPSERT on `(lang, name)`, then
`SELECT id ... WHERE lang = ? AND name = ?`; returns the row id, or -1 if
the select finds nothing. -/
def save_character_profile (db : ProfilesDB) (now : Nat)
    (lang name : String) (doc : PyValue) : Int × ProfilesDB :=
  let conflict := (findProfileRow db.rows lang name).isSome
  let rows' :=
    if conflict then
      db.rows.map fun r =>
        if profileKeyIs lang name r then updateProfileRow now doc r else r
    else
      db.rows ++ [⟨db.next_id, now, now, lang, name, doc⟩]
  let next' := if conflict then db.next_id else db.next_id + 1
  match findProfileRow rows' lang name with
  | some r => ((r.id : Int), ⟨rows', next'⟩)
  | none => (-1, ⟨rows', next'⟩)

theorem profileKeyIs_updateProfileRow (lang name : String) (now : Nat)
    (doc : PyValue) (r : ProfileRow) :
    profileKeyIs lang name (updateProfileRow now doc r) =
      profileKeyIs lang name r := rfl

theorem findProfileRow_map_update (rows : List ProfileRow)
    (lang name : String) (now : Nat) (doc : PyValue) :
    findProfileRow
        (rows.map fun r =>
          if profileKeyIs lang name r then updateProfileRow now doc r else r)
        lang name =
      (findProfileRow rows lang name).map (updateProfileRow now doc) := by
  induction rows with
  | nil => rfl
  | cons hd tl ih =>
    by_cases h : profileKeyIs lang name hd
    · simp [findProfileRow, List.find?, h, profileKeyIs_updateProfileRow]
    · simp only [List.map_cons, if_neg h]
      simp only [findProfileRow, List.find?] at ih ⊢
      simp [h, ih]

theorem countP_map_update (rows : List ProfileRow) (lang name : String)
    (now : Nat) (doc : PyValue) :
    (rows.map fun r =>
        if profileKeyIs lang name r then updateProfileRow now doc r
        else r).countP (profileKeyIs lang name) =
      rows.countP (profileKeyIs lang name) := by
  induction rows with
  | nil => rfl
  | cons hd tl ih =>
    by_cases h : profileKeyIs lang name hd
    · simp [List.countP_cons, h, profileKeyIs_updateProfileRow, ih]
    · simp [List.countP_cons, h, ih]

/-- `UNIQUE(lang, name)`: no two rows share a natural key. -/
def profilesWf (rows : List ProfileRow) : Prop :=
  rows.Pairwise fun a b => ¬(a.lang = b.lang ∧ a.name = b.name)

theorem countP_eq_one_of_find (rows : List ProfileRow) (lang name : String)
    (r : ProfileRow) (hwf : profilesWf rows)
    (hfind : findProfileRow rows lang name = some r) :
    rows.countP (profileKeyIs lang name) = 1 := by
  induction rows with
  | nil => simp [findProfileRow] at hfind
  | cons hd tl ih =>
    rw [profilesWf, List.pairwise_cons] at hwf
    by_cases h : profileKeyIs lang name hd
    · have hzero : tl.countP (profileKeyIs lang name) = 0 := by
        rw [List.countP_eq_zero]
        intro b hb hkb
        have hhd : hd.lang = lang ∧ hd.name = name := by
          simpa [profileKeyIs] using h
        have hbk : b.lang = lang ∧ b.name = name := by
          simpa [profileKeyIs] using hkb
        exact hwf.1 b hb ⟨hhd.1.trans hbk.1.symm, hhd.2.trans hbk.2.symm⟩
      simp [List.countP_cons, h, hzero]
    · have hf : profileKeyIs lang name hd = false := by simpa using h
      simp only [findProfileRow, List.find?_cons, hf] at hfind
      simp [List.countP_cons, hf, ih hwf.2 hfind]

theorem find?_append_of_none {p : ProfileRow → Bool} (l1 l2 : List ProfileRow)
    (h : l1.find? p = none) : (l1 ++ l2).find? p = l2.find? p := by
  induction l1 with
  | nil => rfl
  | cons hd tl ih =>
    simp only [List.find?] at h ⊢
    cases hp : p hd with
    | true => simp [hp] at h
    | false => simp only [hp] at h ⊢; exact ih h

theorem save_character_profile_found (db : ProfilesDB) (now : Nat)
    (lang name : String) (doc : PyValue) (r : ProfileRow)
    (hfind : findProfileRow db.rows lang name = some r) :
    save_character_profile db now lang name doc =
      ((r.id : Int),
       ⟨db.rows.map fun x =>
          if profileKeyIs lang name x then updateProfileRow now doc x else x,
        db.next_id⟩) := by
  have hupd := findProfileRow_map_update db.rows lang name now doc
  rw [hfind] at hupd
  simp only [save_character_profile, hfind, hupd, Option.isSome_some,
    if_true, Option.map_some']
  rfl

theorem save_character_profile_notfound (db : ProfilesDB) (now : Nat)
    (lang name : String) (doc : PyValue)
    (hfind : findProfileRow db.rows lang name = none) :
    save_character_profile db now lang name doc =
      ((db.next_id : Int),
       ⟨db.rows ++ [⟨db.next_id, now, now, lang, name, doc⟩],
        db.next_id + 1⟩) := by
  have happ : findProfileRow
      (db.rows ++ [⟨db.next_id, now, now, lang, name, doc⟩]) lang name =
      some ⟨db.next_id, now, now, lang, name, doc⟩ := by
    unfold findProfileRow
    rw [find?_append_of_none _ _ hfind]
    simp [List.find?, profileKeyIs]
  simp [save_character_profile, hfind, happ]

/-- C4: saving a CharacterProfile twice with the same `(lang, name)` and
the same document returns the same row id both times, and afterwards
storage holds exactly one row for that natural key (the second save
overwrites in place). -/
theorem claim4_profile_upsert_idempotent (db : ProfilesDB) (now₁ now₂ : Nat)
    (lang name : String) (doc : PyValue) (hwf : profilesWf db.rows) :
    (save_character_profile db now₁ lang name doc).1 =
        (save_character_profile
          (save_character_profile db now₁ lang name doc).2
          now₂ lang name doc).1 ∧
      ((save_character_profile
          (save_character_profile db now₁ lang name doc).2
          now₂ lang name doc).2.rows.countP (profileKeyIs lang name)) = 1 := by
  obtain ⟨rows, next⟩ := db
  cases hfind : findProfileRow rows lang name with
  | none =>
    have hkey : profileKeyIs lang name
        (⟨next, now₁, now₁, lang, name, doc⟩ : ProfileRow) = true := by
      simp [profileKeyIs]
    have hcount0 : rows.countP (profileKeyIs lang name) = 0 := by
      rw [List.countP_eq_zero]
      intro b hb hkb
      exact List.find?_eq_none.mp hfind b hb hkb
    have h1 := save_character_profile_notfound ⟨rows, next⟩ now₁
      lang name doc hfind
    rw [h1]
    have happ : findProfileRow
        (rows ++ [⟨next, now₁, now₁, lang, name, doc⟩]) lang name =
        some ⟨next, now₁, now₁, lang, name, doc⟩ := by
      unfold findProfileRow
      rw [find?_append_of_none _ _ hfind]
      simp [List.find?, hkey]
    have h2 := save_character_profile_found
      ⟨rows ++ [⟨next, now₁, now₁, lang, name, doc⟩], next + 1⟩ now₂
      lang name doc _ happ
    rw [h2]
    refine ⟨rfl, ?_⟩
    rw [countP_map_update, List.countP_append]
    simp [hcount0, List.countP_cons, hkey]
  | some r =>
    have h1 := save_character_profile_found ⟨rows, next⟩ now₁
      lang name doc r hfind
    rw [h1]
    have hupd := findProfileRow_map_update rows lang name now₁ doc
    rw [hfind] at hupd
    have h2 := save_character_profile_found
      ⟨rows.map fun x =>
          if profileKeyIs lang name x then updateProfileRow now₁ doc x
          else x, next⟩ now₂ lang name doc _ hupd
    rw [h2]
    refine ⟨rfl, ?_⟩
    rw [countP_map_update, countP_map_update]
    exact countP_eq_one_of_find rows lang name r hwf hfind

theorem claim4_profile_upsert_idempotent_witness :
    profilesWf (⟨[], 1⟩ : ProfilesDB).rows ∧
      ((save_character_profile ⟨[], 1⟩ 10 "en" "Alice" (.dict [])).1 =
          (save_character_profile
            (save_character_profile ⟨[], 1⟩ 10 "en" "Alice" (.dict [])).2
            20 "en" "Alice" (.dict [])).1 ∧
        ((save_character_profile
            (save_character_profile ⟨[], 1⟩ 10 "en" "Alice" (.dict [])).2
            20 "en" "Alice" (.dict [])).2.rows.countP
          (profileKeyIs "en" "Alice")) = 1) :=
  ⟨List.Pairwise.nil,
   claim4_profile_upsert_idempotent ⟨[], 1⟩ 10 20 "en" "Alice" (.dict [])
     List.Pairwise.nil⟩

/-! ## Evaluation persistence and search (`persistence/db.py` lines 509-655)

The `evaluations` table is a list of rows; the optional `eval_embeddings`
vec0 virtual table is `some` rows when the sqlite-vec extension loaded and
`none` otherwise (any failure inside the guarded embedding-insert block —
missing table, packing error — is the `none` case, caught and logged).
`json.dumps`/`json.loads` of `final_json` round-trips the stored value, so
the TEXT column is modelled by the value itself. -/

structure EvalRow where
  id : Nat
  created_at : Nat
  provider : Option String
  model : Option String
  lang : Option String
  rounds : Int
  input_tokens : Int
  output_tokens : Int
  total_tokens : Int
  chapter_text : String
  final_text : Option String
  final_json : Option PyValue

structure EvalDB where
  evaluations : List EvalRow
  embeddings : Option (List (Nat × List ℚ))
  next_eval_id : Nat

/-- `save_evaluation`: insert the record (id = `cur.lastrowid`), then try
the embedding insert, whose failure is swallowed; commit; return the id. -/
def save_evaluation (db : EvalDB) (now : Nat)
    (provider model lang : Option String)
    (rounds input_tokens output_tokens total_tokens : Int)
    (chapter_text : String) (final_text : Option String)
    (final_json : Option PyValue) : Nat × EvalDB :=
  let eval_id := db.next_eval_id
  let row : EvalRow :=
    ⟨eval_id, now, provider, model, lang, rounds, input_tokens,
     output_tokens, total_tokens, chapter_text, final_text, final_json⟩
  let embeddings' :=
    match db.embeddings with
    | some tbl => some (tbl ++ [(eval_id, pseudo_embed chapter_text EMBED_DIM)])
    | none => none
  (eval_id, ⟨db.evaluations ++ [row], embeddings', db.next_eval_id + 1⟩)

/-- C5: `save_evaluation` inserts and commits the evaluation record and
returns its new identity regardless of whether the embedding insert can
run: with the same inputs, an embedding-capable and an embedding-less
store produce the same returned id and the same `evaluations` table, the
id is the fresh row id, and the record row is appended. -/
theorem claim5_save_evaluation_embedding_independent
    (evals : List EvalRow) (emb emb' : Option (List (Nat × List ℚ)))
    (next now : Nat) (provider model lang : Option String)
    (rounds input_tokens output_tokens total_tokens : Int)
    (chapter_text : String) (final_text : Option String)
    (final_json : Option PyValue) :
    (save_evaluation ⟨evals, emb, next⟩ now provider model lang rounds
        input_tokens output_tokens total_tokens chapter_text final_text
        final_json).1 =
      (save_evaluation ⟨evals, emb', next⟩ now provider model lang rounds
        input_tokens output_tokens total_tokens chapter_text final_text
        final_json).1 ∧
    (save_evaluation ⟨evals, emb, next⟩ now provider model lang rounds
        input_tokens output_tokens total_tokens chapter_text final_text
        final_json).2.evaluations =
      (save_evaluation ⟨evals, emb', next⟩ now provider model lang rounds
        input_tokens output_tokens total_tokens chapter_text final_text
        final_json).2.evaluations ∧
    (save_evaluation ⟨evals, emb, next⟩ now provider model lang rounds
        input_tokens output_tokens total_tokens chapter_text final_text
        final_json).1 = next ∧
    (save_evaluation ⟨evals, emb, next⟩ now provider model lang rounds
        input_tokens output_tokens total_tokens chapter_text final_text
        final_json).2.evaluations =
      evals ++ [⟨next, now, provider, model, lang, rounds, input_tokens,
        output_tokens, total_tokens, chapter_text, final_text, final_json⟩] :=
  ⟨rfl, rfl, rfl, rfl⟩

/-- Stable insertion into a sorted list (models `sorted` / `ORDER BY`). -/
def insertBy {α : Type} (le : α → α → Bool) (x : α) : List α → List α
  | [] => [x]
  | y :: ys => if le x y then x :: y :: ys else y :: insertBy le x ys

/-- Stable insertion sort. -/
def sortBy' {α : Type} (le : α → α → Bool) : List α → List α
  | [] => []
  | x :: xs => insertBy le x (sortBy' le xs)

theorem length_insertBy {α : Type} (le : α → α → Bool) (x : α)
    (l : List α) : (insertBy le x l).length = l.length + 1 := by
  induction l with
  | nil => rfl
  | cons y ys ih =>
    by_cases h : le x y
    · simp [insertBy, h]
    · simp [insertBy, h, ih]

theorem length_sortBy' {α : Type} (le : α → α → Bool) (l : List α) :
    (sortBy' le l).length = l.length := by
  induction l with
  | nil => rfl
  | cons x xs ih => simp [sortBy', length_insertBy, ih]

theorem insertBy_perm {α : Type} (le : α → α → Bool) (x : α) (l : List α) :
    (insertBy le x l).Perm (x :: l) := by
  induction l with
  | nil => exact List.Perm.refl _
  | cons y ys ih =>
    by_cases h : le x y
    · simp [insertBy, h]
    · simp only [insertBy, h, Bool.false_eq_true, if_false]
      exact (ih.cons y).trans (List.Perm.swap x y ys)

theorem sortBy'_perm {α : Type} (le : α → α → Bool) (l : List α) :
    (sortBy' le l).Perm l := by
  induction l with
  | nil => exact List.Perm.refl _
  | cons x xs ih => exact (insertBy_perm le x _).trans (ih.cons x)

theorem mem_sortBy' {α : Type} (le : α → α → Bool) (x : α) (l : List α) :
    x ∈ sortBy' le l ↔ x ∈ l :=
  (sortBy'_perm le l).mem_iff

/-- The record summary shape both search paths return
(`id, created_at, provider, model, lang, rounds, final_text, final_json`,
with `final_json` parsed back from its stored text). -/
structure EvalSummary where
  id : Nat
  created_at : Nat
  provider : Option String
  model : Option String
  lang : Option String
  rounds : Int
  final_text : Option String
  final_json : Option PyValue

def toSummary (r : EvalRow) : EvalSummary :=
  ⟨r.id, r.created_at, r.provider, r.model, r.lang, r.rounds,
   r.final_text, r.final_json⟩

/-- Python `str.lower()` / SQLite ASCII lowering, characterwise. -/
def strLower (s : String) : String := String.mk (s.data.map Char.toLower)

/-- `chapter_text LIKE '%q%'` (SQLite LIKE is ASCII-case-insensitive;
wildcard characters inside `q` are not modelled and read literally). -/
def likeContains (q text : String) : Bool :=
  if q == "" then true
  else decide (((strLower text).splitOn (strLower q)).length ≠ 1)

/-- The fallback `LIKE` query of `search_evaluations`: substring filter on
`chapter_text`, `ORDER BY created_at DESC`, `LIMIT top_k`. -/
def likeFallback (db : EvalDB) (query_text : String) (top_k : Nat) :
    List EvalSummary :=
  (((sortBy' (fun a b => decide (b.created_at ≤ a.created_at))
      (db.evaluations.filter fun r => likeContains query_text r.chapter_text))
    ).take top_k).map toSummary

/-- Squared Euclidean distance (`vec0` `distance`); ordering by squared
distance coincides with ordering by distance. -/
def dist2 (u v : List ℚ) : ℚ :=
  ((u.zip v).map fun p => (p.1 - p.2) ^ 2).sum

/-- The `order_map.get(id, 9999)` ranking key used to re-order hydrated
rows by vector distance. -/
def orderKey (ids : List Nat) (r : EvalRow) : Nat :=
  (ids.findIdx? (· == r.id)).getD 9999

/-- `search_evaluations`: nearest-neighbour query over `eval_embeddings`
(`ORDER BY dist LIMIT top_k`), hydration of the matching `evaluations`
rows re-ordered by distance rank — returned only when at least one id came
back; otherwise (no ids, table absent, or any error in the guarded block)
the silent `LIKE` fallback. -/
def search_evaluations (db : EvalDB) (query_text : String) (top_k : Nat) :
    List EvalSummary :=
  match db.embeddings with
  | some tbl =>
    let qvec := pseudo_embed query_text EMBED_DIM
    let ranked := sortBy' (fun a b => decide (a.2 ≤ b.2))
      (tbl.map fun e => (e.1, dist2 e.2 qvec))
    let ids := (ranked.take top_k).map Prod.fst
    if ids.isEmpty then likeFallback db query_text top_k
    else
      let eval_rows := db.evaluations.filter fun r => ids.contains r.id
      (sortBy' (fun a b => decide (orderKey ids a ≤ orderKey ids b))
        eval_rows).map toSummary
  | none => likeFallback db query_text top_k

theorem likeFallback_length_le (db : EvalDB) (q : String) (k : Nat) :
    (likeFallback db q k).length ≤ k := by
  simp only [likeFallback, List.length_map]
  exact List.length_take_le k _

theorem likeFallback_mem (db : EvalDB) (q : String) (k : Nat)
    (s : EvalSummary) (hs : s ∈ likeFallback db q k) :
    ∃ r ∈ db.evaluations, s = toSummary r := by
  simp only [likeFallback, List.mem_map] at hs
  obtain ⟨r, hr, hrs⟩ := hs
  have hr2 : r ∈ sortBy' (fun a b => decide (b.created_at ≤ a.created_at))
      (db.evaluations.filter fun x => likeContains q x.chapter_text) :=
    List.mem_of_mem_take hr
  rw [mem_sortBy'] at hr2
  exact ⟨r, (List.mem_filter.mp hr2).1, hrs.symm⟩

/-- C6: `search_evaluations` returns at most `top_k` summaries, every one
of them the fixed summary projection of a stored evaluation row, whichever
path serves the request; and when the vector path is unavailable the
result IS the substring-fallback result — same shape, no error.  The only
hypothesis is the table's primary-key invariant (distinct row ids). -/
theorem claim6_search_shape_and_fallback (db : EvalDB) (q : String) (k : Nat)
    (hids : (db.evaluations.map EvalRow.id).Nodup) :
    (search_evaluations db q k).length ≤ k ∧
      (∀ s ∈ search_evaluations db q k,
        ∃ r ∈ db.evaluations, s = toSummary r) ∧
      (db.embeddings = none →
        search_evaluations db q k = likeFallback db q k) := by
  obtain ⟨evals, emb, next⟩ := db
  cases emb with
  | none =>
    exact ⟨likeFallback_length_le _ q k,
      fun s hs => likeFallback_mem _ q k s hs, fun _ => rfl⟩
  | some tbl =>
    refine ⟨?_, ?_, ?_⟩
    · show (search_evaluations ⟨evals, some tbl, next⟩ q k).length ≤ k
      simp only [search_evaluations]
      set ids := ((sortBy' (fun a b => decide (a.2 ≤ b.2))
        (tbl.map fun e =>
          (e.1, dist2 e.2 (pseudo_embed q EMBED_DIM)))).take k).map
        Prod.fst with hids_def
      by_cases hempty : ids.isEmpty
      · simp only [hempty, if_true]
        exact likeFallback_length_le _ q k
      · simp only [hempty, Bool.false_eq_true, if_false, List.length_map]
        -- the filtered rows have pairwise-distinct ids, all of them in `ids`
        have hsub : (List.filter (fun r => ids.contains r.id) evals).Sublist
            evals := List.filter_sublist _
        have hnodup : ((List.filter (fun r => ids.contains r.id)
            evals).map EvalRow.id).Nodup :=
          (hsub.map EvalRow.id).nodup hids
        have hss : ((List.filter (fun r => ids.contains r.id)
            evals).map EvalRow.id) ⊆ ids := by
          intro x hx
          simp only [List.mem_map] at hx
          obtain ⟨r, hr, hrx⟩ := hx
          have := (List.mem_filter.mp hr).2
          rw [← hrx]
          exact List.mem_of_elem_eq_true this
        have hle : (List.filter (fun r => ids.contains r.id)
            evals).length ≤ ids.length := by
          have := (List.subperm_of_subset hnodup hss).length_le
          simpa using this
        have hidslen : ids.length ≤ k := by
          rw [hids_def, List.length_map]
          exact List.length_take_le k _
        calc (sortBy' (fun a b => decide (orderKey ids a ≤ orderKey ids b))
              (List.filter (fun r => ids.contains r.id) evals)).length
            = (List.filter (fun r => ids.contains r.id) evals).length :=
              length_sortBy' _ _
          _ ≤ ids.length := hle
          _ ≤ k := hidslen
    · intro s hs
      simp only [search_evaluations] at hs
      by_cases hempty : (((sortBy' (fun a b => decide (a.2 ≤ b.2))
          (tbl.map fun e =>
            (e.1, dist2 e.2 (pseudo_embed q EMBED_DIM)))).take k).map
          Prod.fst).isEmpty
      · rw [if_pos hempty] at hs
        exact likeFallback_mem _ q k s hs
      · rw [if_neg hempty] at hs
        simp only [List.mem_map] at hs
        obtain ⟨r, hr, hrs⟩ := hs
        rw [mem_sortBy'] at hr
        exact ⟨r, (List.mem_filter.mp hr).1, hrs.symm⟩
    · intro h
      simp at h

theorem claim6_search_shape_and_fallback_witness :
    ((([⟨1, 5, none, none, none, 1, 0, 0, 0, "Mystery tale", some "ok",
        none⟩] : List EvalRow).map EvalRow.id).Nodup) ∧
      ((search_evaluations
          ⟨[⟨1, 5, none, none, none, 1, 0, 0, 0, "Mystery tale", some "ok",
            none⟩], none, 2⟩ "Mystery" 5).length ≤ 5 ∧
        (∀ s ∈ search_evaluations
            ⟨[⟨1, 5, none, none, none, 1, 0, 0, 0, "Mystery tale", some "ok",
              none⟩], none, 2⟩ "Mystery" 5,
          ∃ r ∈ [(⟨1, 5, none, none, none, 1, 0, 0, 0, "Mystery tale",
            some "ok", none⟩ : EvalRow)], s = toSummary r) ∧
        ((⟨[⟨1, 5, none, none, none, 1, 0, 0, 0, "Mystery tale", some "ok",
            none⟩], none, 2⟩ : EvalDB).embeddings = none →
          search_evaluations
              ⟨[⟨1, 5, none, none, none, 1, 0, 0, 0, "Mystery tale",
                some "ok", none⟩], none, 2⟩ "Mystery" 5 =
            likeFallback
              ⟨[⟨1, 5, none, none, none, 1, 0, 0, 0, "Mystery tale",
                some "ok", none⟩], none, 2⟩ "Mystery" 5)) :=
  ⟨by simp,
   claim6_search_shape_and_fallback
     ⟨[⟨1, 5, none, none, none, 1, 0, 0, 0, "Mystery tale", some "ok",
       none⟩], none, 2⟩ "Mystery" 5 (by simp)⟩

/-- C10: when the vector path runs without error but the nearest-neighbour
query returns zero rows (the `eval_embeddings` table exists but is empty),
`search_evaluations` does not return the empty vector result: it falls
through to the substring fallback, exactly as when the vector path is
unavailable. -/
theorem claim10_empty_vector_index_falls_back (db : EvalDB) (q : String)
    (k : Nat) (h : db.embeddings = some []) :
    search_evaluations db q k = likeFallback db q k := by
  obtain ⟨evals, emb, next⟩ := db
  simp only at h
  subst h
  simp [search_evaluations, sortBy']

theorem claim10_empty_vector_index_falls_back_witness :
    ((⟨[⟨1, 5, none, none, none, 1, 0, 0, 0, "Mystery tale", some "ok",
        none⟩], some [], 2⟩ : EvalDB).embeddings = some []) ∧
      search_evaluations
          ⟨[⟨1, 5, none, none, none, 1, 0, 0, 0, "Mystery tale", some "ok",
            none⟩], some [], 2⟩ "Mystery" 5 =
        likeFallback
          ⟨[⟨1, 5, none, none, none, 1, 0, 0, 0, "Mystery tale", some "ok",
            none⟩], some [], 2⟩ "Mystery" 5 :=
  ⟨rfl,
   claim10_empty_vector_index_falls_back
     ⟨[⟨1, 5, none, none, none, 1, 0, 0, 0, "Mystery tale", some "ok",
       none⟩], some [], 2⟩ "Mystery" 5 rfl⟩

/-! ## Evaluate-endpoint defaulting
(`api/server.py` lines 131-150; `teams/novel_eval_team.py` lines 15-17,
21-31, 93-101, 148-247, 269-295) -/

/-- The three environment lookups read at module import
(`novel_eval_team.py` lines 15-17); `none` models an unset variable. -/
structure TeamEnv where
  novel_eval_model : Option String
  novel_eval_lang : Option String
  novel_eval_provider : Option String

def DEFAULT_MODEL (e : TeamEnv) : String :=
  e.novel_eval_model.getD "gpt-4o-mini"

def DEFAULT_ANSWER_LANGUAGE (e : TeamEnv) : String :=
  e.novel_eval_lang.getD "zh-CN"

def DEFAULT_PROVIDER (e : TeamEnv) : String :=
  strLower (e.novel_eval_provider.getD "openai")

/-- `_build_model_client`: `chosen_model = model or DEFAULT_MODEL`. -/
def chosen_model (e : TeamEnv) (model : Option String) : String :=
  (pyOrStr model (some (DEFAULT_MODEL e))).getD ""

/-- `_build_model_client`:
`chosen_provider = (provider or DEFAULT_PROVIDER).lower()`. -/
def chosen_provider (e : TeamEnv) (provider : Option String) : String :=
  strLower ((pyOrStr provider (some (DEFAULT_PROVIDER e))).getD "")

/-- Python `f"{x}"` on a `str`-or-`None` value: `None` formats as the four
characters `None`. -/
def pyFormat : Option String → String
  | some s => s
  | none => "None"

/-- `_load_task_config`: the per-language candidate file name
`f"{lang_code\x7d.yaml"`. -/
def taskConfigCandidate (answer_language : Option String) : String :=
  pyFormat answer_language ++ ".yaml"

/-- The language every default agent system message instructs
(`Respond in language: {answer_language\x7d`). -/
def respondLanguageInstruction (answer_language : Option String) : String :=
  "Respond in language: " ++ pyFormat answer_language

/-- The `answer_language` argument the `evaluate` endpoint passes to
`a_evaluate_chapter`:
`payload.answer_language if payload.answer_language else None`.  The
keyword is always passed explicitly, so `a_evaluate_chapter`'s Python
default value `DEFAULT_ANSWER_LANGUAGE` never applies on this path. -/
def evaluateAnswerLanguageArg (payload_answer_language : Option String) :
    Option String :=
  if pyTruthy payload_answer_language then payload_answer_language else none

/-- Task-config candidate file the pipeline looks up for an `/evaluate`
request with the given `answer_language` payload field. -/
def evaluateTaskConfigCandidate (payload_answer_language : Option String) :
    String :=
  taskConfigCandidate (evaluateAnswerLanguageArg payload_answer_language)

/-- Language the agents are instructed to respond in, for an `/evaluate`
request with the given `answer_language` payload field. -/
def evaluateRespondInstruction (payload_answer_language : Option String) :
    String :=
  respondLanguageInstruction
    (evaluateAnswerLanguageArg payload_answer_language)

/-- C9 fails on the code (code bug): with the default environment, an
`/evaluate` request that omits `model` and `provider` does get the
process-wide defaults, but an omitted `answer_language` is forwarded as
Python `None` rather than the default `zh-CN`: the task-config lookup
targets `None.yaml` (not `zh-CN.yaml`) and the injected agent
instructions read `Respond in language: None`. -/
theorem claim9_omitted_answer_language_not_defaulted :
    chosen_model ⟨none, none, none⟩ none = DEFAULT_MODEL ⟨none, none, none⟩ ∧
      chosen_provider ⟨none, none, none⟩ none =
        DEFAULT_PROVIDER ⟨none, none, none⟩ ∧
      DEFAULT_ANSWER_LANGUAGE ⟨none, none, none⟩ = "zh-CN" ∧
      evaluateAnswerLanguageArg none = none ∧
      evaluateTaskConfigCandidate none = "None.yaml" ∧
      evaluateRespondInstruction none = "Respond in language: None" ∧
      evaluateTaskConfigCandidate none ≠
        taskConfigCandidate
          (some (DEFAULT_ANSWER_LANGUAGE ⟨none, none, none⟩)) ∧
      evaluateRespondInstruction none ≠
        respondLanguageInstruction
          (some (DEFAULT_ANSWER_LANGUAGE ⟨none, none, none⟩)) := by
  refine ⟨rfl, ?_, rfl, rfl, rfl, rfl, ?_, ?_⟩ <;> decide

end WriterStudio
